import Mathlib

/-!
Shallow embedding of the ERC-721 ownership ledger in `src/main.rs` (module
`erc721`).  Accounts are 32-byte identifiers, modelled as lists of bytes;
token ids are `u32`, modelled as `Nat` (they are only used as map keys).
The four `ink::storage::Mapping` tables are modelled as association lists
whose `insert` overwrites, so keys stay duplicate-free.  The `u32`
counter arithmetic `c + 1` / `c - 1` is modelled with explicit wrap-around
modulo `2 ^ 32`.  A Rust `panic` (from `Option::expect`) is modelled by
returning `none`; fallible operations return an `Except Error Unit`
result paired with the post-state, because a mutation performed before an
early `return Err(..)` persists (the spec's environment model has no
rollback).
-/

deriving instance DecidableEq for Except

namespace CryptoNFT

abbrev AccountId := List Nat

abbrev TokenId := Nat

/-- `2^32`, the modulus of the `u32` balance counters. -/
def u32Mod : Nat := 2 ^ 32

/-- `AccountId::from([0x0; 32])`: the all-zero NULL sentinel account. -/
def nullAccount : AccountId := List.replicate 32 0

/-- The literal `AccountId::from([0x0, 32])` that `add_token_to` compares
`to` against: a two-element byte array `[0, 32]`, not the 32-byte zero
sentinel (the comma in the source is not a semicolon). -/
def mintSentinel : AccountId := [0, 32]

inductive Error where
  | NotOwner
  | NotApproved
  | TokenExists
  | TokenNotFound
  | CannotInsert
  | CannotFetchValue
  | NotAllowed
deriving DecidableEq, Repr

/-- `Mapping::get`. -/
def mapGet {α β : Type} [DecidableEq α] : List (α × β) → α → Option β
  | [], _ => none
  | (k, v) :: rest, key => if k = key then some v else mapGet rest key

/-- `Mapping::contains`. -/
def mapContains {α β : Type} [DecidableEq α] (m : List (α × β)) (k : α) : Bool :=
  (mapGet m k).isSome

/-- `Mapping::remove`. -/
def mapRemove {α β : Type} [DecidableEq α] : List (α × β) → α → List (α × β)
  | [], _ => []
  | (k, v) :: rest, key =>
      if k = key then mapRemove rest key else (k, v) :: mapRemove rest key

/-- `Mapping::insert` (overwrites any previous binding of the key). -/
def mapInsert {α β : Type} [DecidableEq α] (m : List (α × β)) (k : α) (v : β) :
    List (α × β) :=
  (k, v) :: mapRemove m k

/-- The `#[ink(storage)]` struct `Erc721`: four independent tables. -/
structure Erc721 where
  token_owner : List (TokenId × AccountId)
  token_approvals : List (TokenId × AccountId)
  owned_tokens_count : List (AccountId × Nat)
  operator_approvals : List ((AccountId × AccountId) × Unit)
deriving DecidableEq

/-- `new()`: `Default::default()`, all four tables empty. -/
def emptyLedger : Erc721 := ⟨[], [], [], []⟩

/-- `balance_of_or_zero`: `owned_tokens_count.get(of).unwrap_or(0)`. -/
def balance_of_or_zero (s : Erc721) (of : AccountId) : Nat :=
  (mapGet s.owned_tokens_count of).getD 0

/-- `balance_of`. -/
def balance_of (s : Erc721) (owner : AccountId) : Nat :=
  balance_of_or_zero s owner

/-- `owner_of`: `token_owner.get(id)`. -/
def owner_of (s : Erc721) (id : TokenId) : Option AccountId :=
  mapGet s.token_owner id

/-- `exists`: `token_owner.contains(id)`. -/
def exists_ (s : Erc721) (id : TokenId) : Bool :=
  mapContains s.token_owner id

/-- Modelled from the spec: the getter `approved_for_all` is called at
`approved_or_owner` and `approve_for` but its body is not in `src/`;
spec 4.2 specifies `is_operator(owner, operator)` as a set-membership
query on the (owner, operator) grant set. -/
def approved_for_all (s : Erc721) (owner oper : AccountId) : Bool :=
  mapContains s.operator_approvals (owner, oper)

/-- `approved_or_owner`.  `none` models the panic of `owner.expect(..)` /
`from.expect(..)` when the corresponding option is `None`; the `&&`/`||`
short-circuit order of the source is preserved. -/
def approved_or_owner (s : Erc721) (who : Option AccountId) (id : TokenId) :
    Option Bool :=
  let owner := owner_of s id
  if who = some nullAccount then some false
  else if who = owner then some true
  else if who = mapGet s.token_approvals id then some true
  else
    match owner, who with
    | some o, some f => some (approved_for_all s o f)
    | _, _ => none

/-- `clear_approval`: `token_approvals.remove(id)`. -/
def clear_approval (s : Erc721) (id : TokenId) : Erc721 :=
  { s with token_approvals := mapRemove s.token_approvals id }

/-- `add_token_to`.  Note the sentinel comparison is against the malformed
literal `[0x0, 32]` of the source, not the 32-byte zero account. -/
def add_token_to (s : Erc721) (toA : AccountId) (id : TokenId) :
    Except Error Unit × Erc721 :=
  if mapContains s.token_owner id then (Except.error Error.TokenExists, s)
  else if toA = mintSentinel then (Except.error Error.NotAllowed, s)
  else
    let count := match mapGet s.owned_tokens_count toA with
      | some c => (c + 1) % u32Mod
      | none => 1
    (Except.ok (),
      { s with
        owned_tokens_count := mapInsert s.owned_tokens_count toA count,
        token_owner := mapInsert s.token_owner id toA })

/-- `remove_token_from`: decrements the counter of the *supplied* `from`
account and removes `id` from the owner table. -/
def remove_token_from (s : Erc721) (fromA : AccountId) (id : TokenId) :
    Except Error Unit × Erc721 :=
  if !(mapContains s.token_owner id) then (Except.error Error.TokenNotFound, s)
  else
    match mapGet s.owned_tokens_count fromA with
    | none => (Except.error Error.CannotFetchValue, s)
    | some c =>
        (Except.ok (),
          { s with
            owned_tokens_count :=
              mapInsert s.owned_tokens_count fromA ((c + (u32Mod - 1)) % u32Mod),
            token_owner := mapRemove s.token_owner id })

/-- `transfer_token_from`: existence check, authorization check against the
caller, then `clear_approval`, `remove_token_from(from, id)?`,
`add_token_to(to, id)?`.  `none` models a propagated panic from
`approved_or_owner`. -/
def transfer_token_from (s : Erc721) (caller fromA toA : AccountId)
    (id : TokenId) : Option (Except Error Unit × Erc721) :=
  if !(exists_ s id) then some (Except.error Error.TokenNotFound, s)
  else
    match approved_or_owner s (some caller) id with
    | none => none
    | some false => some (Except.error Error.NotApproved, s)
    | some true =>
        let s1 := clear_approval s id
        match remove_token_from s1 fromA id with
        | (Except.error e, s2) => some (Except.error e, s2)
        | (Except.ok _, s2) =>
            match add_token_to s2 toA id with
            | (Except.error e, s3) => some (Except.error e, s3)
            | (Except.ok _, s3) => some (Except.ok (), s3)

/-- `transfer`: `transfer_token_from(&caller, &destination, id)`. -/
def transfer (s : Erc721) (caller destination : AccountId) (id : TokenId) :
    Option (Except Error Unit × Erc721) :=
  transfer_token_from s caller caller destination id

/-- `transfer_from`: `transfer_token_from(&from, &to, id)` with the
caller resolved from the environment. -/
def transfer_from (s : Erc721) (caller fromA toA : AccountId) (id : TokenId) :
    Option (Except Error Unit × Erc721) :=
  transfer_token_from s caller fromA toA id

/-- `approve_for`.  `none` models the panic of `owner.expect(..)` when the
token has no owner and the caller is not that (absent) owner. -/
def approve_for (s : Erc721) (caller toA : AccountId) (id : TokenId) :
    Option (Except Error Unit × Erc721) :=
  let owner := owner_of s id
  let auth : Option Bool :=
    if owner = some caller then some true
    else
      match owner with
      | some o => some (approved_for_all s o caller)
      | none => none
  match auth with
  | none => none
  | some a =>
      if !a then some (Except.error Error.NotAllowed, s)
      else if toA = nullAccount then some (Except.error Error.NotAllowed, s)
      else if mapContains s.token_approvals id then
        some (Except.error Error.CannotInsert, s)
      else
        some (Except.ok (),
          { s with token_approvals := mapInsert s.token_approvals id toA })

/-- `approve`. -/
def approve (s : Erc721) (caller toA : AccountId) (id : TokenId) :
    Option (Except Error Unit × Erc721) :=
  approve_for s caller toA id

/-- `approve_for_all` (the mutator). -/
def approve_for_all (s : Erc721) (caller toA : AccountId) (approved : Bool) :
    Except Error Unit × Erc721 :=
  if toA = caller then (Except.error Error.NotAllowed, s)
  else if approved then
    (Except.ok (),
      { s with operator_approvals := mapInsert s.operator_approvals (caller, toA) () })
  else
    (Except.ok (),
      { s with operator_approvals := mapRemove s.operator_approvals (caller, toA) })

/-- `set_approval_for_all`. -/
def set_approval_for_all (s : Erc721) (caller toA : AccountId)
    (approved : Bool) : Except Error Unit × Erc721 :=
  approve_for_all s caller toA approved

/-- `mint`: `add_token_to(&caller, id)`. -/
def mint (s : Erc721) (caller : AccountId) (id : TokenId) :
    Except Error Unit × Erc721 :=
  add_token_to s caller id

/-- `burn`: owner lookup, owner-only check, counter decrement, owner
removal.  `token_approvals` is not touched. -/
def burn (s : Erc721) (caller : AccountId) (id : TokenId) :
    Except Error Unit × Erc721 :=
  match mapGet s.token_owner id with
  | none => (Except.error Error.TokenNotFound, s)
  | some owner =>
      if owner ≠ caller then (Except.error Error.NotOwner, s)
      else
        match mapGet s.owned_tokens_count caller with
        | none => (Except.error Error.CannotFetchValue, s)
        | some c =>
            (Except.ok (),
              { s with
                owned_tokens_count :=
                  mapInsert s.owned_tokens_count caller ((c + (u32Mod - 1)) % u32Mod),
                token_owner := mapRemove s.token_owner id })

/-- The number of token ids whose `owner_of` is `a` (the owner table keeps
its keys duplicate-free, so this filter length is that count). -/
def ownedCount (s : Erc721) (a : AccountId) : Nat :=
  (s.token_owner.filter (fun p => decide (p.2 = a))).length

/-- A concrete 32-byte account whose first byte is `n`. -/
def mkAcct (n : Nat) : AccountId := n :: List.replicate 31 0

def acctA : AccountId := mkAcct 1

def acctB : AccountId := mkAcct 2

def acctC : AccountId := mkAcct 3

def acctD : AccountId := mkAcct 4

/-- Reachable: `mint(1)` by `acctA` on the empty ledger. -/
def ledger1 : Erc721 := (mint emptyLedger acctA 1).2

/-- Reachable: `ledger1`, then `mint(2)` by `acctB`. -/
def ledger2 : Erc721 := (mint ledger1 acctB 2).2

/-- Reachable: `ledger2`, then `transfer_from(from = acctB, to = acctC, 1)`
called by `acctA` (the owner of token 1). -/
def ledger3 : Erc721 :=
  ((transfer_from ledger2 acctA acctB acctC 1).getD (Except.ok (), ledger2)).2

/-- Reachable: `ledger1`, then `approve(acctD, 1)` by `acctA`. -/
def ledger1a : Erc721 :=
  ((approve ledger1 acctA acctD 1).getD (Except.ok (), ledger1)).2

/-- Reachable: `ledger1a`, then the failing
`transfer_from(from = acctB, to = acctC, 1)` called by `acctA`. -/
def ledger1aBad : Erc721 :=
  ((transfer_from ledger1a acctA acctB acctC 1).getD (Except.ok (), ledger1a)).2

/-- Reachable: `ledger1a`, then `burn(1)` by `acctA`. -/
def ledger1b : Erc721 := (burn ledger1a acctA 1).2

/-- Reachable: `ledger1a`, then `transfer(acctB, 1)` by `acctA`. -/
def ledgerT : Erc721 :=
  ((transfer ledger1a acctA acctB 1).getD (Except.ok (), ledger1a)).2

example : ledger1 = ⟨[(1, acctA)], [], [(acctA, 1)], []⟩ := by decide

example : transfer_from ledger2 acctA acctB acctC 1 =
    some (Except.ok (), ledger3) := by decide

example : balance_of ledger3 acctA = 1 ∧ ownedCount ledger3 acctA = 0 := by
  decide

theorem mapGet_mem {α β : Type} [DecidableEq α] {m : List (α × β)} {k : α}
    {v : β} (h : mapGet m k = some v) : (k, v) ∈ m := by
  induction m with
  | nil => simp [mapGet] at h
  | cons p rest ih =>
      obtain ⟨a, b⟩ := p
      simp only [mapGet] at h
      split at h
      · next heq =>
          obtain rfl := Option.some.inj h
          exact heq ▸ List.mem_cons_self _ _
      · exact List.mem_cons_of_mem _ (ih h)

theorem mapGet_remove_self {α β : Type} [DecidableEq α] (m : List (α × β))
    (k : α) : mapGet (mapRemove m k) k = none := by
  induction m with
  | nil => rfl
  | cons p rest ih =>
      obtain ⟨a, b⟩ := p
      simp only [mapRemove]
      split
      · exact ih
      · next hne => simp only [mapGet, if_neg hne]; exact ih

theorem mapGet_insert_self {α β : Type} [DecidableEq α] (m : List (α × β))
    (k : α) (v : β) : mapGet (mapInsert m k v) k = some v := by
  simp [mapInsert, mapGet]

theorem ownedCount_pos {s : Erc721} {id : TokenId} {a : AccountId}
    (h : mapGet s.token_owner id = some a) : 0 < ownedCount s a := by
  have hmem : (id, a) ∈ s.token_owner := mapGet_mem h
  have hf : (id, a) ∈ s.token_owner.filter (fun p => decide (p.2 = a)) :=
    List.mem_filter.mpr ⟨hmem, by simp⟩
  exact List.length_pos.mpr (List.ne_nil_of_mem hf)

theorem add_token_to_approvals (s : Erc721) (toA : AccountId) (id : TokenId) :
    (add_token_to s toA id).2.token_approvals = s.token_approvals := by
  unfold add_token_to
  split
  · rfl
  · split
    · rfl
    · rfl

theorem remove_token_from_approvals (s : Erc721) (fromA : AccountId)
    (id : TokenId) :
    (remove_token_from s fromA id).2.token_approvals = s.token_approvals := by
  unfold remove_token_from
  split
  · rfl
  · split
    · rfl
    · rfl

theorem transfer_token_from_ok_approvals (s t : Erc721)
    (caller fromA toA : AccountId) (id : TokenId)
    (h : transfer_token_from s caller fromA toA id = some (Except.ok (), t)) :
    mapGet t.token_approvals id = none := by
  unfold transfer_token_from at h
  split at h
  · simp at h
  · split at h
    · exact absurd h (by simp)
    · simp at h
    · simp only [] at h
      split at h
      · simp at h
      · next s2 hrem =>
          split at h
          · simp at h
          · next s3 hadd =>
              obtain rfl : s3 = t := by
                have := Option.some.inj h
                exact congrArg Prod.snd this
              have h3 : s3.token_approvals = s2.token_approvals := by
                have := congrArg (fun p => p.2.token_approvals) hadd
                simpa [add_token_to_approvals] using this.symm
              have h2 : s2.token_approvals =
                  (clear_approval s id).token_approvals := by
                have := congrArg (fun p => p.2.token_approvals) hrem
                simpa [remove_token_from_approvals] using this.symm
              rw [h3, h2]
              exact mapGet_remove_self _ _

theorem burn_frame (s : Erc721) (caller : AccountId) (id : TokenId) :
    (burn s caller id).2.token_approvals = s.token_approvals ∧
    (burn s caller id).2.operator_approvals = s.operator_approvals := by
  unfold burn
  split
  · exact ⟨rfl, rfl⟩
  · split
    · exact ⟨rfl, rfl⟩
    · split
      · exact ⟨rfl, rfl⟩
      · exact ⟨rfl, rfl⟩

/-- C1: the source claims that in every state reachable by public
operations, `balance_of(A)` equals the number of token ids owned by A.
Refuted: after `mint(1)` by `acctA`, `mint(2)` by `acctB`, and a successful
`transfer_from(from = acctB, to = acctC, 1)` called by the owner `acctA`,
`acctA` still has balance 1 but owns no token (the unchecked `from` is the
account that gets decremented). -/
theorem balance_invariant_broken_by_unchecked_from :
    (mint emptyLedger acctA 1).1 = Except.ok () ∧
    (mint ledger1 acctB 2).1 = Except.ok () ∧
    transfer_from ledger2 acctA acctB acctC 1 = some (Except.ok (), ledger3) ∧
    balance_of ledger3 acctA = 1 ∧
    ownedCount ledger3 acctA = 0 := by decide

/-- C2: the source claims a successful `transfer_from` always mutates the
token's actual recorded owner, never the caller-supplied `from` blindly.
Refuted: with token 1 owned by `acctA`, the call
`transfer_from(from = acctB, to = acctC, 1)` by `acctA` succeeds and
decrements `acctB`'s balance while `acctA`'s balance stays 1. -/
theorem transfer_from_mutates_supplied_from_not_owner :
    owner_of ledger2 1 = some acctA ∧
    transfer_from ledger2 acctA acctB acctC 1 = some (Except.ok (), ledger3) ∧
    balance_of ledger2 acctB = 1 ∧
    balance_of ledger3 acctB = 0 ∧
    balance_of ledger2 acctA = 1 ∧
    balance_of ledger3 acctA = 1 ∧
    owner_of ledger3 1 = some acctC := by decide

/-- C3: the source claims every public operation that returns an error
leaves all four tables unchanged.  Refuted: from the reachable state with
token 1 owned by `acctA` and delegate `acctD`, the call
`transfer_from(from = acctB, to = acctC, 1)` by `acctA` returns
`CannotFetchValue` but has already cleared the token approval. -/
theorem failed_transfer_leaves_approval_cleared :
    approve ledger1 acctA acctD 1 = some (Except.ok (), ledger1a) ∧
    mapGet ledger1a.token_approvals 1 = some acctD ∧
    transfer_from ledger1a acctA acctB acctC 1 =
      some (Except.error Error.CannotFetchValue, ledger1aBad) ∧
    mapGet ledger1aBad.token_approvals 1 = none ∧
    ledger1aBad ≠ ledger1a := by decide

/-- C4: the source claims no public operation returns `CannotFetchValue`
from a reachable state.  Refuted: after a single successful `mint(1)` by
`acctA`, the public call `transfer_from(from = acctB, to = acctC, 1)` by
`acctA` returns `CannotFetchValue` (`acctB` has no balance entry). -/
theorem cannot_fetch_value_reachable_by_public_call :
    (mint emptyLedger acctA 1).1 = Except.ok () ∧
    (transfer_from ledger1 acctA acctB acctC 1).map Prod.fst =
      some (Except.error Error.CannotFetchValue) := by decide

/-- C5: the source claims that for a token with no current owner the
authorization predicate returns false for every caller without an internal
fault.  Refuted: on the empty ledger `approved_or_owner(Some(acctA), 1)`
evaluates `owner.expect(..)` on `None` (modelled as `none`, a panic); and
after mint/approve/burn the stale delegate `acctD` even gets `true` on the
burned, ownerless token 1. -/
theorem approved_or_owner_faults_on_ownerless_token :
    (owner_of emptyLedger 1 = none ∧
      approved_or_owner emptyLedger (some acctA) 1 = none) ∧
    ((burn ledger1a acctA 1).1 = Except.ok () ∧
      owner_of ledger1b 1 = none ∧
      approved_or_owner ledger1b (some acctD) 1 = some true) := by decide

/-- C6: the source claims any operation that would record the NULL
sentinel as owner (mint by NULL, transfer to NULL) fails with `NotAllowed`
and mutates nothing.  Refuted: `add_token_to` compares against the
malformed literal `[0x0, 32]`, so `mint(1)` by the NULL account succeeds
and records NULL as owner, and a transfer to NULL also succeeds. -/
theorem mint_by_null_caller_succeeds :
    (mint emptyLedger nullAccount 1).1 = Except.ok () ∧
    owner_of (mint emptyLedger nullAccount 1).2 1 = some nullAccount ∧
    (transfer ledger1 acctA nullAccount 1).map Prod.fst =
      some (Except.ok ()) := by decide

/-- C7: `burn` returns `TokenNotFound` on an unowned id and `NotOwner`
when the caller is not the recorded owner; for the recorded owner — whose
balance counter agrees with its owned-token count (the spec's standing
invariant) and fits in `u32` — it succeeds, after which the token has no
owner, does not exist, and the owner's balance decreased by exactly 1. -/
theorem burn_spec (s : Erc721) (caller : AccountId) (id : TokenId) :
    (owner_of s id = none →
      burn s caller id = (Except.error Error.TokenNotFound, s)) ∧
    (∀ o, owner_of s id = some o → o ≠ caller →
      burn s caller id = (Except.error Error.NotOwner, s)) ∧
    (owner_of s id = some caller →
      balance_of s caller = ownedCount s caller →
      balance_of s caller < u32Mod →
      (burn s caller id).1 = Except.ok () ∧
      owner_of (burn s caller id).2 id = none ∧
      exists_ (burn s caller id).2 id = false ∧
      balance_of (burn s caller id).2 caller + 1 = balance_of s caller) := by
  refine ⟨?_, ?_, ?_⟩
  · intro h
    unfold burn
    rw [show mapGet s.token_owner id = none from h]
  · intro o ho hne
    unfold burn
    rw [show mapGet s.token_owner id = some o from ho]
    simp [hne]
  · intro ho hbal hlt
    have hpos : 0 < ownedCount s caller := ownedCount_pos ho
    have hbpos : 0 < balance_of s caller := hbal ▸ hpos
    obtain ⟨c, hc⟩ : ∃ c, mapGet s.owned_tokens_count caller = some c := by
      cases hcc : mapGet s.owned_tokens_count caller with
      | none =>
          exfalso
          unfold balance_of balance_of_or_zero at hbpos
          rw [hcc] at hbpos
          simp at hbpos
      | some c => exact ⟨c, rfl⟩
    have hcval : c = balance_of s caller := by
      unfold balance_of balance_of_or_zero
      rw [hc]
      rfl
    have hc1 : 1 ≤ c := hcval ▸ hbpos
    have hclt : c < u32Mod := hcval ▸ hlt
    have hu : 0 < u32Mod := by norm_num [u32Mod]
    have hdec : (c + (u32Mod - 1)) % u32Mod = c - 1 := by
      have h1 : c + (u32Mod - 1) = (c - 1) + u32Mod := by omega
      rw [h1, Nat.add_mod_right, Nat.mod_eq_of_lt (by omega)]
    have hstep : burn s caller id =
        (Except.ok (),
          { s with
            owned_tokens_count :=
              mapInsert s.owned_tokens_count caller ((c + (u32Mod - 1)) % u32Mod),
            token_owner := mapRemove s.token_owner id }) := by
      unfold burn
      rw [show mapGet s.token_owner id = some caller from ho, hc]
      simp
    rw [hstep]
    refine ⟨rfl, ?_, ?_, ?_⟩
    · simp only [owner_of]
      exact mapGet_remove_self _ _
    · simp only [exists_, mapContains, mapGet_remove_self, Option.isSome_none]
    · simp only [balance_of, balance_of_or_zero, mapGet_insert_self,
        Option.getD_some, hdec, hc]
      omega

/-- C7 witness: burning token 1 of the single-token ledger of `acctA`. -/
theorem burn_spec_witness :
    (burn ledger1 acctA 1).1 = Except.ok () ∧
    owner_of (burn ledger1 acctA 1).2 1 = none ∧
    exists_ (burn ledger1 acctA 1).2 1 = false ∧
    balance_of (burn ledger1 acctA 1).2 acctA + 1 = balance_of ledger1 acctA :=
  (burn_spec ledger1 acctA 1).2.2 (by decide) (by decide) (by decide)

/-- C8: `approve` on a token with recorded owner `o` fails with
`NotAllowed` for a caller that is neither `o` nor a registered operator
for `o`; called by the owner with a non-NULL delegate and an empty
approval slot it succeeds and records the delegate; with the slot still
occupied it fails with `CannotInsert`. -/
theorem approve_spec (s : Erc721) (caller toA o d : AccountId) (id : TokenId)
    (how : owner_of s id = some o) :
    (caller ≠ o → approved_for_all s o caller = false →
      approve s caller toA id = some (Except.error Error.NotAllowed, s)) ∧
    (caller = o → toA ≠ nullAccount → mapGet s.token_approvals id = none →
      approve s caller toA id =
        some (Except.ok (),
          { s with token_approvals := mapInsert s.token_approvals id toA })) ∧
    (caller = o → toA ≠ nullAccount → mapGet s.token_approvals id = some d →
      approve s caller toA id = some (Except.error Error.CannotInsert, s)) := by
  refine ⟨?_, ?_, ?_⟩
  · intro hne hop
    unfold approve approve_for
    rw [how]
    simp [Ne.symm hne, hop]
  · intro hco hto hslot
    subst hco
    unfold approve approve_for
    rw [how]
    simp [mapContains, hslot, hto]
  · intro hco hto hslot
    subst hco
    unfold approve approve_for
    rw [how]
    simp [mapContains, hslot, hto]

/-- C8 witness: `acctA` approving `acctD` on its token 1. -/
theorem approve_spec_witness :
    approve ledger1 acctA acctD 1 =
      some (Except.ok (),
        { ledger1 with token_approvals := mapInsert ledger1.token_approvals 1 acctD }) :=
  (approve_spec ledger1 acctA acctD acctA acctB 1 (by decide)).2.1 rfl
    (by decide) (by decide)

/-- C9: after a successful `transfer` or `transfer_from` of a token, its
single-token approval slot is empty (`clear_approval` runs on the success
path and the later steps do not touch `token_approvals`). -/
theorem transfer_clears_token_approval (s t u : Erc721)
    (caller fromA dest toA : AccountId) (id : TokenId) :
    (transfer s caller dest id = some (Except.ok (), t) →
      mapGet t.token_approvals id = none) ∧
    (transfer_from s caller fromA toA id = some (Except.ok (), u) →
      mapGet u.token_approvals id = none) :=
  ⟨fun h => transfer_token_from_ok_approvals s t caller caller dest id h,
   fun h => transfer_token_from_ok_approvals s u caller fromA toA id h⟩

/-- C9 witness: transferring token 1 (which has delegate `acctD`) from
`acctA` to `acctB` leaves no recorded delegate. -/
theorem transfer_clears_token_approval_witness :
    mapGet ledger1a.token_approvals 1 = some acctD ∧
    mapGet ledgerT.token_approvals 1 = none :=
  ⟨by decide,
   (transfer_clears_token_approval ledger1a ledgerT ledgerT acctA acctA acctB
      acctB 1).1 (by decide)⟩

/-- C10: a successful `burn` leaves `token_approvals` and
`operator_approvals` untouched (only `token_owner` and
`owned_tokens_count` change), and a later `mint` of the same id also
leaves the stale delegate entry in place. -/
theorem burn_preserves_approval_tables (s t : Erc721)
    (caller other : AccountId) (id : TokenId)
    (h : burn s caller id = (Except.ok (), t)) :
    t.token_approvals = s.token_approvals ∧
    t.operator_approvals = s.operator_approvals ∧
    (mint t other id).2.token_approvals = t.token_approvals := by
  have ht : (burn s caller id).2 = t := congrArg Prod.snd h
  refine ⟨?_, ?_, add_token_to_approvals t other id⟩
  · rw [← ht]
    exact (burn_frame s caller id).1
  · rw [← ht]
    exact (burn_frame s caller id).2

/-- C10 witness: burning token 1 with delegate `acctD` recorded keeps the
delegate entry, also across a re-mint of id 1. -/
theorem burn_preserves_approval_tables_witness :
    ledger1b.token_approvals = ledger1a.token_approvals ∧
    ledger1b.operator_approvals = ledger1a.operator_approvals ∧
    (mint ledger1b acctB 1).2.token_approvals = ledger1b.token_approvals :=
  burn_preserves_approval_tables ledger1a ledger1b acctA acctB 1 (by decide)

end CryptoNFT
